import Mathlib

/-!
Verification of the agent-evaluation harness (`src/backend` and `src/data`).

The Python code is shallowly embedded: duck-typed run items become a record
of optional attributes (`none` models an absent attribute, and — where the
code treats the two identically — an attribute whose value is Python
`None`); the external collaborators (agent execution engine, hosted session
store, filesystem, clock, `git` subprocess) become explicit parameters, and
the drivers' persistence side effects (CSV write, history append) become
fields of the returned output record.

Conventions used throughout:
* Python truthiness on strings: `None` and `""` are falsy (`pyTruthy`).
* The optional SDK imports in `utils.py` (`HandoffOutputItem`,
  `ToolCallItem`, `FunctionCallOutputItem`) are modelled as having
  succeeded; the `isinstance` outcome for each class is a boolean field of
  the item.
* Python `float` arithmetic is modelled by `ℚ`; the only divisions the
  code performs are `correct / total`, guarded by `if total else 0.0`.
-/

namespace AgentEvals

/-- An agent object as seen by the extractors: only its `name` attribute is
ever read, via `getattr(agent, "name", default)`. `none` models an agent
without a usable `name` attribute. -/
structure Agent where
  name : Option String
deriving Repr, DecidableEq

/-- The `raw_item` payload of a tool-call item; only its `name` attribute is
read. `none` models an absent/`None` name. -/
structure RawItem where
  name : Option String
deriving Repr, DecidableEq

/-- A `function_call` / `tool_call` attribute value; only `name` is read. -/
structure FuncCall where
  name : Option String
deriving Repr, DecidableEq

/-- One run item, as probed by `utils.py`. Boolean fields model the
`isinstance` checks against the optionally-imported SDK classes; `Option`
fields model `hasattr`/`getattr` probing. For `target_agent` the code
distinguishes attribute-absent from attribute-present-with-`None`
(`hasattr` vs `getattr(..., None)`), hence the nested `Option`; for the
remaining attributes the two cases are observationally identical in
`utils.py`, so a single `Option` collapses them. -/
structure RunItem where
  isHandoffOutputItem : Bool := false
  isToolCallItem : Bool := false
  isFunctionCallOutputItem : Bool := false
  /-- outer `none`: no `target_agent` attribute; `some none`: attribute
  present with value `None`; `some (some a)`: attribute holds agent `a`. -/
  target_agent : Option (Option Agent) := none
  raw_item : Option RawItem := none
  /-- the `type` attribute (string discriminator), if present. -/
  type : Option String := none
  function_call : Option FuncCall := none
  tool_call : Option FuncCall := none
  function_name : Option String := none
  name : Option String := none
deriving Repr, DecidableEq

/-- A run result: `new_items`, `all_items` (`getattr(r, ..., []) or []`
collapses absent/`None` to the empty list) and the `last_agent`
reference. -/
structure RunResult where
  new_items : List RunItem := []
  all_items : List RunItem := []
  last_agent : Option Agent := none
deriving Repr, DecidableEq

/-- Python truthiness of an optional string: `None` and `""` are falsy. -/
def pyTruthy : Option String → Bool
  | none => false
  | some s => !(s == "")

/-- Python `a or b` on two optional strings: `a` if truthy, else `b`. -/
def pyOrStr (a b : Option String) : Option String :=
  if pyTruthy a then a else b

/-- The loop body of `extract_routed_agent_name` (src/backend/utils.py,
lines 36-54): scan items for the first handoff-shaped one (an
`isinstance HandoffOutputItem` hit, or any item exposing a `target_agent`
attribute); resolve its target's name with `"Unknown"` as the sentinel for
an unresolvable target; if no such item exists, fall back to
`getattr(getattr(run_result, "last_agent", None), "name", "Unknown")`. -/
def routeFromItems (last_agent : Option Agent) : List RunItem → String
  | [] =>
    match last_agent with
    | some a => a.name.getD "Unknown"
    | none => "Unknown"
  | item :: rest =>
    if item.isHandoffOutputItem then
      match item.target_agent with
      | some (some t) => t.name.getD "Unknown"
      | _ => "Unknown"
    else
      match item.target_agent with
      | some (some t) => t.name.getD "Unknown"
      | some none => "Unknown"
      | none => routeFromItems last_agent rest

/-- `extract_routed_agent_name` (src/backend/utils.py, lines 30-54). -/
def extract_routed_agent_name (r : RunResult) : String :=
  routeFromItems r.last_agent r.new_items

/-- The tool-name resolution cascade applied to one run item
(src/backend/utils.py: lines 69-105 for the `new_items` loop, which ends
with the bare-`name` last resort guarded by `not hasattr(item,
"target_agent")`; lines 113-140 for the `all_items` loop, which omits that
last resort — `lastResort` selects between the two). Each `let` mirrors one
`if not tool_name and ...` assignment of the source. -/
def itemToolName (lastResort : Bool) (item : RunItem) : Option String :=
  let t1 : Option String :=
    if item.isToolCallItem then
      (match item.raw_item with
       | some raw => raw.name
       | none => none)
    else none
  let t2 : Option String :=
    if !pyTruthy t1 && item.type == some "tool_call_item" then
      (match item.raw_item with
       | some raw => raw.name
       | none => t1)
    else t1
  let t3 : Option String :=
    if !pyTruthy t2 && item.isFunctionCallOutputItem then
      pyOrStr item.function_name item.name
    else t2
  let t4 : Option String :=
    if !pyTruthy t3 && (item.function_call.isSome || item.tool_call.isSome) then
      (match (if item.function_call.isSome then item.function_call else item.tool_call) with
       | some fc => fc.name
       | none => t3)
    else t3
  let t5 : Option String :=
    if !pyTruthy t4 && item.function_name.isSome then item.function_name else t4
  if lastResort then
    if !pyTruthy t5 && item.name.isSome && item.target_agent.isNone then item.name
    else t5
  else t5

/-- `if tool_name and tool_name not in seen_tools: append + add`
(src/backend/utils.py, lines 107-109 and 142-144). `seen_tools` is always
exactly the set of elements of `tool_calls`, so one list suffices. -/
def addToolName (acc : List String) (t : Option String) : List String :=
  match t with
  | some s => if s ≠ "" ∧ s ∉ acc then acc ++ [s] else acc
  | none => acc

/-- `extract_tool_calls` (src/backend/utils.py, lines 57-146): resolve a
name for each item of `new_items` (with the last-resort step), then of
`all_items` (without it), de-duplicating by first occurrence. -/
def extract_tool_calls (r : RunResult) : List String :=
  let afterNew := r.new_items.foldl (fun acc item => addToolName acc (itemToolName true item)) []
  r.all_items.foldl (fun acc item => addToolName acc (itemToolName false item)) afterNew

/-- Keep a resolved name only if truthy (non-`None`, non-empty). -/
def truthyName (t : Option String) : Option String :=
  if pyTruthy t then t else none

/-- The sequence of truthy tool names resolved across both item sequences,
in scan order — the input stream of the de-duplication. -/
def resolvedNames (r : RunResult) : List String :=
  r.new_items.filterMap (fun i => truthyName (itemToolName true i)) ++
    r.all_items.filterMap (fun i => truthyName (itemToolName false i))

/-- Insert a name unless already recorded. -/
def insertName (acc : List String) (s : String) : List String :=
  if s ∈ acc then acc else acc ++ [s]

/-- First-seen order-preserving de-duplication. -/
def dedupFirstSeen (l : List String) : List String :=
  l.foldl insertName []

theorem addToolName_eq (acc : List String) (t : Option String) :
    addToolName acc t =
      match truthyName t with
      | some s => insertName acc s
      | none => acc := by
  rcases t with _ | s
  · rfl
  · by_cases hs : s = ""
    · subst hs
      simp [addToolName, truthyName, pyTruthy, insertName]
    · by_cases hm : s ∈ acc <;>
        simp [addToolName, truthyName, pyTruthy, insertName, hs, hm]

theorem foldl_addToolName (f : RunItem → Option String) :
    ∀ (items : List RunItem) (acc : List String),
      items.foldl (fun a i => addToolName a (f i)) acc =
        (items.filterMap (fun i => truthyName (f i))).foldl insertName acc := by
  intro items
  induction items with
  | nil => intro acc; rfl
  | cons i rest ih =>
    intro acc
    simp only [List.foldl_cons, List.filterMap_cons]
    rw [addToolName_eq]
    cases h : truthyName (f i) with
    | none => simpa using ih acc
    | some s => simpa using ih (insertName acc s)

/-- `extract_tool_calls` is exactly first-seen de-duplication of the
resolved-name stream. -/
theorem extract_tool_calls_eq_dedup (r : RunResult) :
    extract_tool_calls r = dedupFirstSeen (resolvedNames r) := by
  unfold extract_tool_calls dedupFirstSeen resolvedNames
  rw [foldl_addToolName, foldl_addToolName, List.foldl_append]

/-- `RunMetadata` as built by `build_run_metadata` (src/backend/history.py,
lines 48-57). `git_commit` is `Option String` because
`get_git_commit_hash` returns `Optional[str]`. -/
structure RunMetadata where
  run_id : String
  timestamp : String
  model : String
  dataset : String
  eval_type : String
  git_commit : Option String
deriving Repr, DecidableEq

/-- One element of the history store: the metadata dict merged with the
run's aggregate fields (`{**metadata, accuracy, correct, total,
csv_path}`, src/backend/tool_eval.py lines 175-181). -/
structure HistoryRecord where
  run_id : String
  timestamp : String
  model : String
  dataset : String
  eval_type : String
  git_commit : Option String
  accuracy : ℚ
  correct : ℕ
  total : ℕ
  csv_path : String
deriving Repr, DecidableEq

/-- The history store file: `none` models "history.json does not exist",
`some h` models the file holding the JSON array `h` (the
`json.dump`/`json.load` round trip is assumed faithful). -/
abbrev HistoryStore := Option (List HistoryRecord)

/-- `load_history` (src/backend/history.py, lines 17-22): empty list when
the store file does not exist, else its parsed contents. -/
def load_history : HistoryStore → List HistoryRecord
  | none => []
  | some h => h

/-- `append_history` (src/backend/history.py, lines 25-31): load the full
existing history, append the entry, rewrite the store in full. -/
def append_history (store : HistoryStore) (entry : HistoryRecord) : HistoryStore :=
  some (load_history store ++ [entry])

/-- Appending a batch of records one at a time, as repeated evaluation
runs would. -/
def appendAll (store : HistoryStore) (entries : List HistoryRecord) : HistoryStore :=
  entries.foldl append_history store

/-- Outcome of the `subprocess.run(["git", "rev-parse", "HEAD"], ...)`
call in `get_git_commit_hash` (src/backend/history.py, lines 34-45):
either it succeeds (carrying the already-stripped stdout), or it raises
one of the two caught exceptions — `CalledProcessError` (git exits
nonzero: the lookup fails) or `FileNotFoundError` (the git tool is
unavailable). -/
inductive GitOutcome where
  | success (hash : String)
  | calledProcessError
  | fileNotFound
deriving Repr, DecidableEq

/-- `get_git_commit_hash` (src/backend/history.py, lines 34-45): the hash
on success, `None` when either caught exception is raised. Totality of
this function is the embedding of "the failure never raises out". -/
def get_git_commit_hash : GitOutcome → Option String
  | .success h => some h
  | .calledProcessError => none
  | .fileNotFound => none

/-- `build_run_metadata` (src/backend/history.py, lines 48-57). The
`datetime.now().isoformat()` clock reading is the `timestamp` parameter;
the git subprocess outcome is the `git` parameter. -/
def build_run_metadata (git : GitOutcome) (model dataset eval_type timestamp : String) :
    RunMetadata :=
  { run_id := eval_type ++ "_" ++ timestamp
    timestamp := timestamp
    model := model
    dataset := dataset
    eval_type := eval_type
    git_commit := get_git_commit_hash git }

/-- One case of the tool-call dataset (src/data/dataset.py, lines 17-21). -/
structure ToolCallCase where
  case_id : String
  prompt : String
  expected_tool : String
deriving Repr, DecidableEq

/-- One case of the routing dataset (src/data/dataset.py, lines 10-14). -/
structure RoutingCase where
  case_id : String
  prompt : String
  expected_agent : String
deriving Repr, DecidableEq

/-- A per-case scored result as built for the UI by both drivers
(src/backend/tool_eval.py lines 155-160, src/backend/handoff_eval.py
lines 123-128). -/
structure ScoredResult where
  message : String
  target : String
  output : String
  correct : Bool
deriving Repr, DecidableEq

/-- The aggregate accuracy expression `correct / total if total else 0.0`
(src/backend/tool_eval.py line 171, src/backend/handoff_eval.py line 138),
with Python floats modelled by `ℚ`. -/
def accuracy_of (correct total : ℕ) : ℚ :=
  if total = 0 then 0 else (correct : ℚ) / (total : ℚ)

namespace ToolEval

/-- A phase-1 interim record of the tool-call driver
(src/backend/tool_eval.py, lines 123-132). -/
structure StoredRun where
  case_id : String
  expected : String
  actual : String
  all_tools_called : List String
  conversation_id : String
  final_output : String
deriving Repr, DecidableEq

/-- One data row of the tool-call CSV export (src/backend/tool_eval.py,
lines 58-81): run-metadata columns followed by the per-case columns. -/
structure CsvRow where
  run_id : String
  timestamp : String
  model : String
  dataset : String
  eval_type : String
  message : String
  target : String
  output : String
deriving Repr, DecidableEq

/-- The row-writing loop of `save_results_to_csv`
(src/backend/tool_eval.py, lines 70-81), modelled as the list of rows
written after the header. -/
def save_results_to_csv (results : List ScoredResult) (metadata : RunMetadata) :
    List CsvRow :=
  results.map (fun res =>
    { run_id := metadata.run_id
      timestamp := metadata.timestamp
      model := metadata.model
      dataset := metadata.dataset
      eval_type := metadata.eval_type
      message := res.message
      target := res.target
      output := res.output })

/-- Phase-1 body for one case (src/backend/tool_eval.py, lines 106-132):
run the agent, extract the tool calls, take
`called_tools[0] if called_tools else "None"` as the actual label.
`runOf`, `convOf`, `finalOf` are the external agent-execution and
session-store collaborators. -/
def phase1Row (runOf : ToolCallCase → RunResult) (convOf finalOf : ToolCallCase → String)
    (case : ToolCallCase) : StoredRun :=
  let called_tools := extract_tool_calls (runOf case)
  { case_id := case.case_id
    expected := case.expected_tool
    actual := match called_tools with
              | [] => "None"
              | t :: _ => t
    all_tools_called := called_tools
    conversation_id := convOf case
    final_output := finalOf case }

/-- Phase-2 scoring of one stored run (src/backend/tool_eval.py, lines
151-160): string equality of actual vs expected, message looked up by
`case_id` in the dataset. -/
def scoreRow (dataset : List ToolCallCase) (row : StoredRun) : ScoredResult :=
  { message := ((dataset.find? (fun c => c.case_id == row.case_id)).map
      ToolCallCase.prompt).getD ""
    target := row.expected
    output := row.actual
    correct := row.actual == row.expected }

/-- What `run_tool_eval` returns and the persistence effects it performs:
the returned aggregate dict (src/backend/tool_eval.py, lines 191-198), the
CSV rows written, the history record appended, and the history store state
after the PERSIST step. -/
structure Output where
  accuracy : ℚ
  correct : ℕ
  total : ℕ
  results : List ScoredResult
  csv_path : String
  metadata : RunMetadata
  csv_rows : List CsvRow
  history_record : HistoryRecord
  store_after : HistoryStore
deriving Repr, DecidableEq

/-- `run_tool_eval` (src/backend/tool_eval.py, lines 86-198). External
inputs made explicit: `ts` is the metadata clock reading, `file_ts` the
CSV-filename clock reading, `out_dir` the results directory, `git` the git
subprocess outcome, `dataset` the module-level `TOOL_CALL_DATASET`,
`runOf`/`convOf`/`finalOf` the agent-execution and session collaborators,
`store` the history store before the run. Phase 2's session reload
(`get_items`) affects only verbose logging and is elided. -/
def run_tool_eval (model ts file_ts out_dir : String) (git : GitOutcome)
    (dataset : List ToolCallCase) (runOf : ToolCallCase → RunResult)
    (convOf finalOf : ToolCallCase → String) (store : HistoryStore) : Output :=
  let metadata := build_run_metadata git model "TOOL_CALL_DATASET" "tool" ts
  let stored_runs := dataset.map (phase1Row runOf convOf finalOf)
  let correct := stored_runs.countP (fun row => row.actual == row.expected)
  let results := stored_runs.map (scoreRow dataset)
  let total := stored_runs.length
  let acc := accuracy_of correct total
  let csv_path := out_dir ++ "/tool_call_evals_" ++ file_ts ++ ".csv"
  let csv_rows := save_results_to_csv results metadata
  let history_record : HistoryRecord :=
    { run_id := metadata.run_id
      timestamp := metadata.timestamp
      model := metadata.model
      dataset := metadata.dataset
      eval_type := metadata.eval_type
      git_commit := metadata.git_commit
      accuracy := acc
      correct := correct
      total := total
      csv_path := csv_path }
  { accuracy := acc
    correct := correct
    total := total
    results := results
    csv_path := csv_path
    metadata := metadata
    csv_rows := csv_rows
    history_record := history_record
    store_after := append_history store history_record }

end ToolEval

namespace HandoffEval

/-- A phase-1 interim record of the handoff driver
(src/backend/handoff_eval.py, lines 92-100). -/
structure StoredRun where
  case_id : String
  expected : String
  actual : String
  conversation_id : String
  final_output : String
deriving Repr, DecidableEq

/-- One data row of the handoff CSV export (src/backend/handoff_eval.py,
lines 52-61): only `message`, `target`, `output` — no metadata columns. -/
structure CsvRow where
  message : String
  target : String
  output : String
deriving Repr, DecidableEq

/-- The row-writing loop of `save_results_to_csv`
(src/backend/handoff_eval.py, lines 55-61). -/
def save_results_to_csv (results : List ScoredResult) : List CsvRow :=
  results.map (fun res =>
    { message := res.message
      target := res.target
      output := res.output })

/-- Phase-1 body for one case (src/backend/handoff_eval.py, lines 80-100):
run the orchestrator and extract the routed agent's name. -/
def phase1Row (runOf : RoutingCase → RunResult) (convOf finalOf : RoutingCase → String)
    (case : RoutingCase) : StoredRun :=
  { case_id := case.case_id
    expected := case.expected_agent
    actual := extract_routed_agent_name (runOf case)
    conversation_id := convOf case
    final_output := finalOf case }

/-- Phase-2 scoring of one stored run (src/backend/handoff_eval.py, lines
119-128). -/
def scoreRow (dataset : List RoutingCase) (row : StoredRun) : ScoredResult :=
  { message := ((dataset.find? (fun c => c.case_id == row.case_id)).map
      RoutingCase.prompt).getD ""
    target := row.expected
    output := row.actual
    correct := row.actual == row.expected }

/-- What `run_handoff_eval` returns and the persistence effects it
performs (src/backend/handoff_eval.py, lines 150-156). The driver builds
no run metadata and never calls `append_history`, so the output carries
only the store state after the run. -/
structure Output where
  accuracy : ℚ
  correct : ℕ
  total : ℕ
  results : List ScoredResult
  csv_path : String
  csv_rows : List CsvRow
  store_after : HistoryStore
deriving Repr, DecidableEq

/-- `run_handoff_eval` (src/backend/handoff_eval.py, lines 66-156).
External inputs as for the tool driver; `dataset` is the module-level
`ROUTING_DATASET`. The PERSIST step writes the CSV export only — the
history store is returned untouched because the source contains no
`append_history` call (it does not even import it). -/
def run_handoff_eval (file_ts out_dir : String) (dataset : List RoutingCase)
    (runOf : RoutingCase → RunResult) (convOf finalOf : RoutingCase → String)
    (store : HistoryStore) : Output :=
  let stored_runs := dataset.map (phase1Row runOf convOf finalOf)
  let correct := stored_runs.countP (fun row => row.actual == row.expected)
  let results := stored_runs.map (scoreRow dataset)
  let total := stored_runs.length
  let acc := accuracy_of correct total
  let csv_path := out_dir ++ "/handoff_evals_" ++ file_ts ++ ".csv"
  let csv_rows := save_results_to_csv results
  { accuracy := acc
    correct := correct
    total := total
    results := results
    csv_path := csv_path
    csv_rows := csv_rows
    store_after := store }

end HandoffEval

/-- An item counts as handoff-shaped for the routing scan iff one of the
two checks of the loop body fires: the `isinstance HandoffOutputItem` test
or the `hasattr(item, "target_agent")` fallback. -/
def handoffShaped (i : RunItem) : Bool :=
  i.isHandoffOutputItem || i.target_agent.isSome

theorem routeFromItems_skip_prefix (la : Option Agent) :
    ∀ (pre rest : List RunItem), (∀ i ∈ pre, handoffShaped i = false) →
      routeFromItems la (pre ++ rest) = routeFromItems la rest := by
  intro pre
  induction pre with
  | nil => intro rest _; rfl
  | cons i pre' ih =>
    intro rest hpre
    have hi := hpre i (by simp)
    simp only [handoffShaped, Bool.or_eq_false_iff] at hi
    cases htg : i.target_agent with
    | some _ => rw [htg] at hi; simp at hi
    | none =>
      simp only [List.cons_append, routeFromItems, hi.1, Bool.false_eq_true,
        if_false, htg]
      exact ih rest (fun j hj => hpre j (by simp [hj]))

/-- C2 — For every run-item sequence containing exactly one handoff-shaped
item whose target agent is resolvable, `extract_routed_agent_name` returns
that target agent's name, regardless of how many non-handoff items precede
or follow the handoff item. -/
theorem C2_single_handoff_routes_target
    (r : RunResult) (pre post : List RunItem) (h : RunItem) (t : Agent) (nm : String)
    (hsplit : r.new_items = pre ++ h :: post)
    (hpre : ∀ i ∈ pre, handoffShaped i = false)
    (hpost : ∀ i ∈ post, handoffShaped i = false)
    (htarget : h.target_agent = some (some t))
    (hname : t.name = some nm) :
    extract_routed_agent_name r = nm := by
  unfold extract_routed_agent_name
  rw [hsplit, routeFromItems_skip_prefix r.last_agent pre (h :: post) hpre]
  cases hb : h.isHandoffOutputItem <;>
    simp [routeFromItems, hb, htarget, hname]

/-- Concrete instance of C2: a message item, then a handoff to
"Operational", then another message item. -/
def c2Item : RunItem :=
  { isHandoffOutputItem := true
    target_agent := some (some { name := some "Operational" }) }

/-- A plain message-like run item: no handoff or tool-call shape. -/
def msgItem : RunItem :=
  { type := some "message_output_item" }

def c2Run : RunResult :=
  { new_items := [msgItem, c2Item, msgItem]
    last_agent := some { name := some "Orchestrator" } }

theorem C2_witness : extract_routed_agent_name c2Run = "Operational" :=
  C2_single_handoff_routes_target c2Run [msgItem] [msgItem] c2Item
    { name := some "Operational" } "Operational" rfl (by decide) (by decide) rfl rfl

/-- C3 — For every run-item sequence containing zero handoff-shaped items,
`extract_routed_agent_name` returns the name of the run result's last
active agent. -/
theorem C3_no_handoff_falls_back_to_last_agent
    (r : RunResult) (a : Agent) (nm : String)
    (hnone : ∀ i ∈ r.new_items, handoffShaped i = false)
    (hlast : r.last_agent = some a)
    (hname : a.name = some nm) :
    extract_routed_agent_name r = nm := by
  unfold extract_routed_agent_name
  have := routeFromItems_skip_prefix r.last_agent r.new_items [] hnone
  rw [List.append_nil] at this
  rw [this, hlast]
  simp [routeFromItems, hname]

def c3Run : RunResult :=
  { new_items := [msgItem, msgItem]
    last_agent := some { name := some "Informational" } }

theorem C3_witness : extract_routed_agent_name c3Run = "Informational" :=
  C3_no_handoff_falls_back_to_last_agent c3Run { name := some "Informational" }
    "Informational" (by decide) rfl rfl

/-- C4 — For every run-item sequence whose tool-call-shaped items carry
the names [A, B, A] in that order (as the stream of resolved truthy tool
names across both scan passes), `extract_tool_calls` returns [A, B]: each
distinct tool name appears exactly once, in first-seen order. -/
theorem C4_first_seen_dedup (r : RunResult) (a b : String)
    (hnames : resolvedNames r = [a, b, a]) (hab : a ≠ b) :
    extract_tool_calls r = [a, b] := by
  rw [extract_tool_calls_eq_dedup, hnames]
  have hba : b ≠ a := hab.symm
  simp [dedupFirstSeen, insertName, hab, hba]

/-- A tool-call item (the typed `ToolCallItem` shape) named `s`. -/
def toolItem (s : String) : RunItem :=
  { isToolCallItem := true
    raw_item := some { name := some s } }

def c4Run : RunResult :=
  { new_items := [toolItem "transfer_funds", toolItem "pay_bill", toolItem "transfer_funds"] }

theorem C4_witness : extract_tool_calls c4Run = ["transfer_funds", "pay_bill"] :=
  C4_first_seen_dedup c4Run "transfer_funds" "pay_bill" rfl (by decide)

/-- A handoff-shaped item as the tool extractor can encounter it: it
exposes a `target_agent` relation and a generic `name` attribute, and —
being a handoff, not a tool call — carries none of the tool-call shapes
(not a `ToolCallItem` or `FunctionCallOutputItem` instance, not
type-tagged `"tool_call_item"`, no `function_call`/`tool_call`/
`function_name` attribute). -/
def handoff_item_shaped (i : RunItem) : Bool :=
  i.target_agent.isSome && i.name.isSome &&
    !i.isToolCallItem && !i.isFunctionCallOutputItem &&
    !(i.type == some "tool_call_item") &&
    i.function_call.isNone && i.tool_call.isNone && i.function_name.isNone

theorem itemToolName_of_handoff_shaped (b : Bool) (i : RunItem)
    (h : handoff_item_shaped i = true) : itemToolName b i = none := by
  simp only [handoff_item_shaped, Bool.and_eq_true, Bool.not_eq_true',
    beq_eq_false_iff_ne, ne_eq, Option.isNone_iff_eq_none] at h
  obtain ⟨⟨⟨⟨⟨⟨⟨hta, hnm⟩, htci⟩, hfcoi⟩, hty⟩, hfc⟩, htc⟩, hfn⟩ := h
  cases hcase : i.target_agent with
  | none => rw [hcase] at hta; simp at hta
  | some ta =>
    cases b <;>
      simp [itemToolName, htci, hfcoi, hty, hfc, htc, hfn, pyTruthy, hcase]

/-- C5 — A handoff-shaped item (exposing both a name attribute and a
target-agent relation) is never returned by `extract_tool_calls` as a tool
call: deleting such an item from the scanned sequence leaves the result
unchanged. -/
theorem C5_handoff_item_never_tool_call
    (pre post allItems : List RunItem) (la : Option Agent) (h : RunItem)
    (hshape : handoff_item_shaped h = true) :
    extract_tool_calls
        { new_items := pre ++ h :: post, all_items := allItems, last_agent := la } =
      extract_tool_calls
        { new_items := pre ++ post, all_items := allItems, last_agent := la } := by
  rw [extract_tool_calls_eq_dedup, extract_tool_calls_eq_dedup]
  unfold resolvedNames
  simp [List.filterMap_append, List.filterMap_cons,
    itemToolName_of_handoff_shaped true h hshape, truthyName, pyTruthy]

/-- A handoff item carrying both a generic `name` and a target agent. -/
def c5HandoffItem : RunItem :=
  { name := some "transfer_to_operational"
    target_agent := some (some { name := some "Operational" }) }

theorem C5_witness :
    extract_tool_calls
        { new_items := [toolItem "pay_bill", c5HandoffItem], all_items := [], last_agent := none } =
      extract_tool_calls
        { new_items := [toolItem "pay_bill"], all_items := [], last_agent := none } :=
  C5_handoff_item_never_tool_call [toolItem "pay_bill"] [] [] none c5HandoffItem
    (by decide)

theorem load_appendAll (entries : List HistoryRecord) :
    ∀ store : HistoryStore,
      load_history (appendAll store entries) = load_history store ++ entries := by
  induction entries with
  | nil => intro store; simp [appendAll]
  | cons e es ih =>
    intro store
    show load_history (appendAll (append_history store e) es) = _
    rw [ih (append_history store e)]
    simp [append_history, load_history]

/-- C6 — Appending N HistoryRecords to the history store and then loading
returns exactly those N records in append order; loading before any append
(store file does not yet exist) returns an empty sequence. -/
theorem C6_history_round_trip (entries : List HistoryRecord) :
    load_history (appendAll none entries) = entries ∧
      load_history (none : HistoryStore) = [] := by
  refine ⟨?_, rfl⟩
  rw [load_appendAll entries none]
  rfl

/-- C7 — In both drivers the aggregate accuracy equals correct/total when
total > 0 and exactly 0 when total = 0 (no divide-by-zero fault: the
division is guarded by `if total else 0.0`); in particular
accuracy(0, 0) = 0 and accuracy(3, 4) = 0.75. -/
theorem C7_accuracy_definition :
    (∀ (model ts file_ts out_dir : String) (git : GitOutcome)
        (dataset : List ToolCallCase) (runOf : ToolCallCase → RunResult)
        (convOf finalOf : ToolCallCase → String) (store : HistoryStore),
      (ToolEval.run_tool_eval model ts file_ts out_dir git dataset runOf convOf
          finalOf store).accuracy =
        accuracy_of
          (ToolEval.run_tool_eval model ts file_ts out_dir git dataset runOf convOf
            finalOf store).correct
          (ToolEval.run_tool_eval model ts file_ts out_dir git dataset runOf convOf
            finalOf store).total) ∧
    (∀ (file_ts out_dir : String) (dataset : List RoutingCase)
        (runOf : RoutingCase → RunResult) (convOf finalOf : RoutingCase → String)
        (store : HistoryStore),
      (HandoffEval.run_handoff_eval file_ts out_dir dataset runOf convOf
          finalOf store).accuracy =
        accuracy_of
          (HandoffEval.run_handoff_eval file_ts out_dir dataset runOf convOf
            finalOf store).correct
          (HandoffEval.run_handoff_eval file_ts out_dir dataset runOf convOf
            finalOf store).total) ∧
    (∀ correct : ℕ, accuracy_of correct 0 = 0) ∧
    (∀ (correct total : ℕ),
      accuracy_of correct (total + 1) = (correct : ℚ) / ((total : ℚ) + 1)) ∧
    accuracy_of 0 0 = 0 ∧ accuracy_of 3 4 = 3 / 4 := by
  refine ⟨fun _ _ _ _ _ _ _ _ _ _ => rfl, fun _ _ _ _ _ _ _ => rfl,
    fun _ => rfl, fun c t => ?_, rfl, ?_⟩
  · simp [accuracy_of]
  · norm_num [accuracy_of]

/-- C10 — If the git-commit lookup fails (`CalledProcessError`) or the git
tool is unavailable (`FileNotFoundError`), `build_run_metadata` still
returns a complete metadata record whose `git_commit` field holds the
explicit unknown marker (`None`); totality of the embedded functions over
every `GitOutcome` reflects that the caught failure never raises out of
the metadata construction. -/
theorem C10_metadata_on_git_failure :
    ∀ model dataset eval_type ts : String,
      build_run_metadata .calledProcessError model dataset eval_type ts =
        { run_id := eval_type ++ "_" ++ ts, timestamp := ts, model := model,
          dataset := dataset, eval_type := eval_type, git_commit := none } ∧
      build_run_metadata .fileNotFound model dataset eval_type ts =
        { run_id := eval_type ++ "_" ++ ts, timestamp := ts, model := model,
          dataset := dataset, eval_type := eval_type, git_commit := none } :=
  fun _ _ _ _ => ⟨rfl, rfl⟩

theorem getElem?_append_cons {α : Type} (l₁ : List α) (a : α) (l₂ : List α) :
    (l₁ ++ a :: l₂)[l₁.length]? = some a := by
  induction l₁ with
  | nil => simp
  | cons x xs ih => simpa using ih

/-- The scored result the tool driver produces for the case at position
`pre.length` of the dataset. -/
theorem tool_results_at (model ts file_ts out_dir : String) (git : GitOutcome)
    (pre post : List ToolCallCase) (c : ToolCallCase)
    (runOf : ToolCallCase → RunResult) (convOf finalOf : ToolCallCase → String)
    (store : HistoryStore) :
    (ToolEval.run_tool_eval model ts file_ts out_dir git (pre ++ c :: post) runOf
        convOf finalOf store).results[pre.length]? =
      some (ToolEval.scoreRow (pre ++ c :: post)
        (ToolEval.phase1Row runOf convOf finalOf c)) := by
  have hres : (ToolEval.run_tool_eval model ts file_ts out_dir git (pre ++ c :: post)
      runOf convOf finalOf store).results =
        ((pre ++ c :: post).map (ToolEval.phase1Row runOf convOf finalOf)).map
          (ToolEval.scoreRow (pre ++ c :: post)) := rfl
  rw [hres, List.getElem?_map, List.getElem?_map, getElem?_append_cons]
  rfl

/-- If no item of either sequence resolves to a truthy tool name, the
extractor returns the empty list. -/
theorem extract_tool_calls_eq_nil (r : RunResult)
    (hnew : ∀ i ∈ r.new_items, pyTruthy (itemToolName true i) = false)
    (hall : ∀ i ∈ r.all_items, pyTruthy (itemToolName false i) = false) :
    extract_tool_calls r = [] := by
  rw [extract_tool_calls_eq_dedup]
  have h1 : r.new_items.filterMap (fun i => truthyName (itemToolName true i)) = [] := by
    rw [List.filterMap_eq_nil_iff]
    intro i hi
    simp [truthyName, hnew i hi]
  have h2 : r.all_items.filterMap (fun i => truthyName (itemToolName false i)) = [] := by
    rw [List.filterMap_eq_nil_iff]
    intro i hi
    simp [truthyName, hall i hi]
  unfold resolvedNames
  rw [h1, h2]
  rfl

/-- C8 — For every tool-call case whose run emits no tool-call-shaped
items (no item of either scanned sequence resolves to a truthy tool name),
`extract_tool_calls` returns the empty list, the driver records the
sentinel actual label "None", and a case expecting a concrete tool name is
scored correct = false. -/
theorem C8_no_tool_calls_sentinel (model ts file_ts out_dir : String)
    (git : GitOutcome) (pre post : List ToolCallCase) (c : ToolCallCase)
    (runOf : ToolCallCase → RunResult) (convOf finalOf : ToolCallCase → String)
    (store : HistoryStore)
    (hnew : ∀ i ∈ (runOf c).new_items, pyTruthy (itemToolName true i) = false)
    (hall : ∀ i ∈ (runOf c).all_items, pyTruthy (itemToolName false i) = false)
    (hexp : c.expected_tool ≠ "None") :
    extract_tool_calls (runOf c) = [] ∧
      ((ToolEval.run_tool_eval model ts file_ts out_dir git (pre ++ c :: post) runOf
          convOf finalOf store).results[pre.length]?).map
        (fun res => (res.output, res.correct)) = some ("None", false) := by
  have hnil := extract_tool_calls_eq_nil (runOf c) hnew hall
  refine ⟨hnil, ?_⟩
  rw [tool_results_at]
  have hne : ("None" == c.expected_tool) = false :=
    beq_eq_false_iff_ne.mpr (Ne.symm hexp)
  simp [ToolEval.scoreRow, ToolEval.phase1Row, hnil, hne]

/-- C9 — The actual label the tool driver compares against the expected
tool is only the first element of the extracted tool-call list; whenever
the extracted list contains the expected tool at any position other than
the first, the case is scored correct = false even though the expected
tool was invoked. -/
theorem C9_only_first_tool_compared (model ts file_ts out_dir : String)
    (git : GitOutcome) (pre post : List ToolCallCase) (c : ToolCallCase)
    (runOf : ToolCallCase → RunResult) (convOf finalOf : ToolCallCase → String)
    (store : HistoryStore)
    (hmem : c.expected_tool ∈ extract_tool_calls (runOf c))
    (hfirst : (extract_tool_calls (runOf c)).head? ≠ some c.expected_tool) :
    ((ToolEval.run_tool_eval model ts file_ts out_dir git (pre ++ c :: post) runOf
        convOf finalOf store).results[pre.length]?).map
      (fun res => (res.output, res.correct)) =
      some ((extract_tool_calls (runOf c)).headD "None", false) := by
  rw [tool_results_at]
  cases hcall : extract_tool_calls (runOf c) with
  | nil => rw [hcall] at hmem; simp at hmem
  | cons t rest =>
    rw [hcall] at hfirst
    have hne : (t == c.expected_tool) = false := by
      rw [beq_eq_false_iff_ne]
      intro he
      exact hfirst (by rw [he, List.head?_cons])
    simp [ToolEval.scoreRow, ToolEval.phase1Row, hcall, hne]

/-- A tool-call case expecting `pay_bill`. -/
def payBillCase : ToolCallCase :=
  { case_id := "t1", prompt := "Pay my electricity bill", expected_tool := "pay_bill" }

/-- A run that emitted only a message item — no tool-call-shaped item. -/
def noToolRun : RunResult :=
  { new_items := [msgItem], all_items := [msgItem],
    last_agent := some { name := some "Operational" } }

theorem C8_witness :
    extract_tool_calls noToolRun = [] ∧
      ((ToolEval.run_tool_eval "gpt-4.1-mini" "2026-01-01T00:00:00" "20260101_000000"
          "results" (.success "abc123") ([] ++ payBillCase :: []) (fun _ => noToolRun)
          (fun _ => "conv_t1") (fun _ => "Done.") none).results[(0 : ℕ)]?).map
        (fun res => (res.output, res.correct)) = some ("None", false) :=
  C8_no_tool_calls_sentinel "gpt-4.1-mini" "2026-01-01T00:00:00" "20260101_000000"
    "results" (.success "abc123") [] [] payBillCase (fun _ => noToolRun)
    (fun _ => "conv_t1") (fun _ => "Done.") none (by decide) (by decide) (by decide)

/-- A run whose tool calls resolve to `transfer_funds` then `pay_bill`. -/
def twoToolRun : RunResult :=
  { new_items := [toolItem "transfer_funds", toolItem "pay_bill"],
    last_agent := some { name := some "Operational" } }

theorem C9_witness :
    ((ToolEval.run_tool_eval "gpt-4.1-mini" "2026-01-01T00:00:00" "20260101_000000"
        "results" (.success "abc123") ([] ++ payBillCase :: []) (fun _ => twoToolRun)
        (fun _ => "conv_t1") (fun _ => "Done.") none).results[(0 : ℕ)]?).map
      (fun res => (res.output, res.correct)) =
      some ((extract_tool_calls twoToolRun).headD "None", false) :=
  C9_only_first_tool_compared "gpt-4.1-mini" "2026-01-01T00:00:00" "20260101_000000"
    "results" (.success "abc123") [] [] payBillCase (fun _ => twoToolRun)
    (fun _ => "conv_t1") (fun _ => "Done.") none (by decide) (by decide)

/-- A routing case and a run that hands off to "Operational": a completed
handoff-driver evaluation run. -/
def c1Case : RoutingCase :=
  { case_id := "r1", prompt := "Transfer $50 to savings", expected_agent := "Operational" }

def c1Run : RunResult :=
  { new_items := [c2Item], last_agent := some { name := some "Operational" } }

/-- Counterexample to C1 as stated: a completed `run_handoff_eval` run
(one case, scored, CSV row written) leaves the history store untouched —
zero HistoryRecords are appended, not exactly one. -/
theorem C1_counterexample :
    (HandoffEval.run_handoff_eval "20260101_000000" "results" [c1Case]
        (fun _ => c1Run) (fun _ => "conv_r1") (fun _ => "Done.") none).total = 1 ∧
      (HandoffEval.run_handoff_eval "20260101_000000" "results" [c1Case]
          (fun _ => c1Run) (fun _ => "conv_r1") (fun _ => "Done.") none).csv_rows.length = 1 ∧
      load_history (HandoffEval.run_handoff_eval "20260101_000000" "results" [c1Case]
          (fun _ => c1Run) (fun _ => "conv_r1") (fun _ => "Done.") none).store_after = [] :=
  ⟨rfl, rfl, rfl⟩

/-- C1 (amended) — The tool driver's PERSIST step writes a per-case CSV
export and appends exactly one HistoryRecord (metadata plus accuracy,
correct, total, csv_path) to the history store; the handoff driver's
PERSIST step writes a per-case CSV export only and appends no
HistoryRecord. -/
theorem C1_persist_amended :
    (∀ (model ts file_ts out_dir : String) (git : GitOutcome)
        (dataset : List ToolCallCase) (runOf : ToolCallCase → RunResult)
        (convOf finalOf : ToolCallCase → String) (store : HistoryStore),
      let out := ToolEval.run_tool_eval model ts file_ts out_dir git dataset runOf
        convOf finalOf store
      load_history out.store_after = load_history store ++ [out.history_record] ∧
        out.history_record.accuracy = out.accuracy ∧
        out.history_record.correct = out.correct ∧
        out.history_record.total = out.total ∧
        out.history_record.csv_path = out.csv_path ∧
        out.history_record.run_id = out.metadata.run_id ∧
        out.history_record.timestamp = out.metadata.timestamp ∧
        out.history_record.model = out.metadata.model ∧
        out.history_record.dataset = out.metadata.dataset ∧
        out.history_record.eval_type = out.metadata.eval_type ∧
        out.history_record.git_commit = out.metadata.git_commit ∧
        out.csv_rows.length = dataset.length ∧
        out.results.length = dataset.length) ∧
    (∀ (file_ts out_dir : String) (dataset : List RoutingCase)
        (runOf : RoutingCase → RunResult) (convOf finalOf : RoutingCase → String)
        (store : HistoryStore),
      let out := HandoffEval.run_handoff_eval file_ts out_dir dataset runOf convOf
        finalOf store
      out.store_after = store ∧
        out.csv_rows.length = dataset.length ∧
        out.results.length = dataset.length) := by
  constructor
  · intro model ts file_ts out_dir git dataset runOf convOf finalOf store
    refine ⟨rfl, rfl, rfl, rfl, rfl, rfl, rfl, rfl, rfl, rfl, rfl, ?_, ?_⟩
    · simp [ToolEval.run_tool_eval, ToolEval.save_results_to_csv]
    · simp [ToolEval.run_tool_eval]
  · intro file_ts out_dir dataset runOf convOf finalOf store
    refine ⟨rfl, ?_, ?_⟩
    · simp [HandoffEval.run_handoff_eval, HandoffEval.save_results_to_csv]
    · simp [HandoffEval.run_handoff_eval]

end AgentEvals
